import Mathlib

/-!
Verification of the react-hook-form-storage core: the pure helpers
`filterIncludedOrExcludedFields`, `transformValues`, `debouncer` from
`src/utils.ts` and the orchestration hook `useFormStorage` from
`src/use-react-hook-form-storage.ts`.

A JavaScript object produced by `Object.entries` / rebuilt by repeated
spreads `{...acc, [field]: value}` is modelled as an association list
`List (String × α)` in entry order; the spread is modelled by `upsert`,
which overwrites an existing key in place and otherwise appends, exactly
as the JS spread does.
-/

set_option autoImplicit false

namespace FormStorage

universe u

variable {α : Type u}

/-- The JS object spread `{...acc, [field]: value}`: if `field` is already a
key of `acc` its value is replaced in place, otherwise the pair is appended
at the end. -/
def upsert (acc : List (String × α)) (field : String) (value : α) :
    List (String × α) :=
  if acc.any (fun p => p.1 == field) then
    acc.map (fun p => if p.1 == field then (field, value) else p)
  else
    acc ++ [(field, value)]

/-- Embedding of `filterIncludedOrExcludedFields` (src/utils.ts): a reduce
over the entries of `values` that drops an entry when `included` is supplied
and does not contain its key, drops it when `excluded` is supplied and does
contain its key, and otherwise spreads it into the accumulator. -/
def filterIncludedOrExcludedFields (values : List (String × α))
    (included excluded : Option (List String)) : List (String × α) :=
  values.foldl (fun acc p =>
    if (match included with
        | some inc => !(inc.contains p.1)
        | none => false) then acc
    else if (match excluded with
        | some exc => exc.contains p.1
        | none => false) then acc
    else upsert acc p.1 p.2) []

/-- Embedding of the `Serializer` type (src/types.ts): an optional
serialize function and an optional deserialize function. -/
structure Serializer (α : Type u) where
  serialize : Option (α → α)
  deserialize : Option (α → α)

/-- Embedding of `transformValues` (src/utils.ts): a reduce over the entries
of `values`; an entry whose key has no record in `serializer` is spread
through unchanged; one whose record lacks the function for the requested
direction is skipped; otherwise the function's result is spread in under the
key. -/
def transformValues (values : List (String × α))
    (serializer : List (String × Serializer α)) (deserialize : Bool) :
    List (String × α) :=
  values.foldl (fun acc p =>
    match List.lookup p.1 serializer with
    | none => upsert acc p.1 p.2
    | some fieldSerializer =>
      match (if deserialize then fieldSerializer.deserialize
             else fieldSerializer.serialize) with
      | none => acc
      | some transformFn => upsert acc p.1 (transformFn p.2)) []

theorem upsert_of_not_mem (acc : List (String × α)) (k : String) (v : α)
    (h : ∀ r ∈ acc, r.1 ≠ k) : upsert acc k v = acc ++ [(k, v)] := by
  unfold upsert
  rw [if_neg]
  simp only [List.any_eq_true, not_exists, not_and]
  intro p hp
  simpa using h p hp

/-- Each per-entry step of the two reduces above is of the shape "apply a
key-preserving partial function, then spread the result in"; on inputs with
pairwise distinct keys such a reduce is a `filterMap`. -/
theorem foldl_upsert_eq_filterMap (f : String × α → Option (String × α))
    (hf : ∀ p q, f p = some q → q.1 = p.1) :
    ∀ (values acc : List (String × α)),
      (values.map Prod.fst).Nodup →
      (∀ p ∈ values, ∀ r ∈ acc, r.1 ≠ p.1) →
      values.foldl (fun a p =>
          Option.elim (f p) a (fun q => upsert a q.1 q.2)) acc
        = acc ++ values.filterMap f := by
  intro values
  induction values with
  | nil => intro acc _ _; simp
  | cons p vs ih =>
    intro acc hnd hdisj
    simp only [List.map_cons, List.nodup_cons, List.mem_map] at hnd
    obtain ⟨hp_not, hnd'⟩ := hnd
    rw [List.foldl_cons]
    cases hfp : f p with
    | none =>
      rw [List.filterMap_cons_none hfp, Option.elim_none]
      exact ih acc hnd' (fun x hx r hr => hdisj x (List.mem_cons_of_mem p hx) r hr)
    | some q =>
      have hq1 : q.1 = p.1 := hf p q hfp
      rw [List.filterMap_cons_some hfp, Option.elim_some]
      have hup : upsert acc q.1 q.2 = acc ++ [(q.1, q.2)] := by
        apply upsert_of_not_mem
        intro r hr
        rw [hq1]
        exact hdisj p (List.mem_cons_self p vs) r hr
      rw [hup]
      have hdisj' : ∀ x ∈ vs, ∀ r ∈ acc ++ [(q.1, q.2)], r.1 ≠ x.1 := by
        intro x hx r hr
        rcases List.mem_append.mp hr with hr' | hr'
        · exact hdisj x (List.mem_cons_of_mem p hx) r hr'
        · simp only [List.mem_singleton] at hr'
          subst hr'
          simp only [hq1]
          intro hcontra
          exact hp_not ⟨x, hx, hcontra.symm⟩
      rw [ih (acc ++ [(q.1, q.2)]) hnd' hdisj']
      simp

/-- The selection predicate of `filterIncludedOrExcludedFields`, as a
filterMap-shaped step function. -/
def selectStep (included excluded : Option (List String))
    (p : String × α) : Option (String × α) :=
  if (match included with
      | some inc => !(inc.contains p.1)
      | none => false) then none
  else if (match excluded with
      | some exc => exc.contains p.1
      | none => false) then none
  else some p

theorem selectStep_key (included excluded : Option (List String))
    (p q : String × α) (hq : selectStep included excluded p = some q) :
    q.1 = p.1 := by
  unfold selectStep at hq
  split at hq
  · exact absurd hq (by simp)
  · split at hq
    · exact absurd hq (by simp)
    · cases hq; rfl

theorem filterIncludedOrExcludedFields_eq_filterMap
    (values : List (String × α)) (included excluded : Option (List String))
    (hnd : (values.map Prod.fst).Nodup) :
    filterIncludedOrExcludedFields values included excluded
      = values.filterMap (selectStep included excluded) := by
  have hstep : (fun (acc : List (String × α)) (p : String × α) =>
      if (match included with
          | some inc => !(inc.contains p.1)
          | none => false) then acc
      else if (match excluded with
          | some exc => exc.contains p.1
          | none => false) then acc
      else upsert acc p.1 p.2)
    = (fun acc p =>
        Option.elim (selectStep included excluded p) acc
          (fun q => upsert acc q.1 q.2)) := by
    funext acc p
    unfold selectStep
    cases h1 : (match included with
        | some inc => !(inc.contains p.1)
        | none => false) with
    | true => rfl
    | false =>
      cases h2 : (match excluded with
          | some exc => exc.contains p.1
          | none => false) with
      | true => rfl
      | false => rfl
  unfold filterIncludedOrExcludedFields
  rw [hstep]
  exact foldl_upsert_eq_filterMap (selectStep included excluded)
    (selectStep_key included excluded)
    values [] hnd (by intro p _ r hr; exact absurd hr (List.not_mem_nil r))

/-- The per-entry behaviour of `transformValues`, as a filterMap-shaped step
function: passthrough without a registry record, omission when the record
lacks the requested direction, application otherwise. -/
def transformStep (serializer : List (String × Serializer α))
    (deserialize : Bool) (p : String × α) : Option (String × α) :=
  match List.lookup p.1 serializer with
  | none => some p
  | some fieldSerializer =>
    match (if deserialize then fieldSerializer.deserialize
           else fieldSerializer.serialize) with
    | none => none
    | some transformFn => some (p.1, transformFn p.2)

theorem transformStep_key (serializer : List (String × Serializer α))
    (deserialize : Bool) (p q : String × α)
    (hq : transformStep serializer deserialize p = some q) : q.1 = p.1 := by
  unfold transformStep at hq
  split at hq
  · cases hq; rfl
  · split at hq
    · exact absurd hq (by simp)
    · cases hq; rfl

theorem transformValues_eq_filterMap (values : List (String × α))
    (serializer : List (String × Serializer α)) (deserialize : Bool)
    (hnd : (values.map Prod.fst).Nodup) :
    transformValues values serializer deserialize
      = values.filterMap (transformStep serializer deserialize) := by
  have hstep : (fun (acc : List (String × α)) (p : String × α) =>
      match List.lookup p.1 serializer with
      | none => upsert acc p.1 p.2
      | some fieldSerializer =>
        match (if deserialize then fieldSerializer.deserialize
               else fieldSerializer.serialize) with
        | none => acc
        | some transformFn => upsert acc p.1 (transformFn p.2))
    = (fun acc p =>
        Option.elim (transformStep serializer deserialize p) acc
          (fun q => upsert acc q.1 q.2)) := by
    funext acc p
    unfold transformStep
    cases hl : List.lookup p.1 serializer with
    | none => rfl
    | some fieldSerializer =>
      obtain ⟨os, od⟩ := fieldSerializer
      cases deserialize <;> cases os <;> cases od <;> rfl
  unfold transformValues
  rw [hstep]
  exact foldl_upsert_eq_filterMap (transformStep serializer deserialize)
    (transformStep_key serializer deserialize)
    values [] hnd (by intro p _ r hr; exact absurd hr (List.not_mem_nil r))

/-- A JavaScript value as produced by `JSON.parse`. -/
inductive JsonValue : Type where
  | str : String → JsonValue
  | num : Int → JsonValue
  | bool : Bool → JsonValue
  | null : JsonValue
  | arr : List JsonValue → JsonValue
  | obj : List (String × JsonValue) → JsonValue

/-- Entries (JS `Object.entries`) of a parsed value, as invoked on the
parsed record inside `filterIncludedOrExcludedFields`: the fields of an
object in order, index/element pairs for an array, index/character pairs
for a (boxed) string, the empty list for the boxed number and boolean
primitives, and a thrown `TypeError` for `null`, which `ToObject`
rejects. -/
def objectEntries : JsonValue → Except String (List (String × JsonValue))
  | JsonValue.obj fields => Except.ok fields
  | JsonValue.arr xs => Except.ok (xs.enum.map (fun p => (toString p.1, p.2)))
  | JsonValue.str s =>
      Except.ok (s.toList.enum.map
        (fun p => (toString p.1, JsonValue.str (String.mk [p.2]))))
  | JsonValue.num _ => Except.ok []
  | JsonValue.bool _ => Except.ok []
  | JsonValue.null =>
      Except.error "TypeError: Cannot convert undefined or null to object"

/-- The raw backing store consumed by the hook (`storage` in the options):
`getItem` / `setItem` / `removeItem` over an explicit store state `σ`; a
result of `Except.error e` models a synchronous throw or an asynchronous
rejection carrying the rendering of the thrown error. -/
structure RawAdapter (σ : Type) where
  getItem : String → σ → Except String (Option String) × σ
  setItem : String → String → σ → Except String Unit × σ
  removeItem : String → σ → Except String Unit × σ

/-- The diagnostic emitted by the shim's `setItem` catch. -/
def saveToStorageFailMsg (e : String) : String :=
  "[FORM-STORAGE] Failed to save data to storage: " ++ e

/-- The diagnostic emitted by the shim's `getItem` catch, and also by the
catch of `restoreDataFromStorage` (the source uses the same text). -/
def restoreFailMsg (e : String) : String :=
  "[FORM-STORAGE] Failed to restore data from storage: " ++ e

/-- The diagnostic emitted by the shim's `removeItem` catch. -/
def clearFailMsg (e : String) : String :=
  "[FORM-STORAGE] Failed to clear storage: " ++ e

/-- The diagnostic emitted by the catch of `saveToStorage`. -/
def saveDataFailMsg (e : String) : String :=
  "[FORM-STORAGE] Failed to save data: " ++ e

/-- The `setItem` of the `storageAdapter` shim built by the hook: awaits the
raw `setItem` and catches any failure, turning it into a diagnostic and a
normal resolution. The `Except` layer of the result is the shim's own
promise; the list collects the diagnostics emitted by the call. -/
def shimSetItem {σ : Type} (raw : RawAdapter σ) (key value : String) (s : σ) :
    Except String Unit × σ × List String :=
  match raw.setItem key value s with
  | (Except.ok u, s') => (Except.ok u, s', [])
  | (Except.error e, s') => (Except.ok (), s', [saveToStorageFailMsg e])

/-- The `getItem` of the `storageAdapter` shim: awaits the raw `getItem`,
catching any failure into a diagnostic and a resolution with `null`. -/
def shimGetItem {σ : Type} (raw : RawAdapter σ) (key : String) (s : σ) :
    Except String (Option String) × σ × List String :=
  match raw.getItem key s with
  | (Except.ok v, s') => (Except.ok v, s', [])
  | (Except.error e, s') => (Except.ok none, s', [restoreFailMsg e])

/-- The `removeItem` of the `storageAdapter` shim: awaits the raw
`removeItem`, catching any failure into a diagnostic and a resolution. -/
def shimRemoveItem {σ : Type} (raw : RawAdapter σ) (key : String) (s : σ) :
    Except String Unit × σ × List String :=
  match raw.removeItem key s with
  | (Except.ok u, s') => (Except.ok u, s', [])
  | (Except.error e, s') => (Except.ok (), s', [clearFailMsg e])

/-- The form binding's field write for flat keys (react-hook-form's
`setValue`): replaces the value of an existing field in place, adds the
field otherwise. The dirty/touched/validate flags do not affect the value
written, so they are not carried in the model. -/
def setValue (form : List (String × JsonValue)) (field : String)
    (value : JsonValue) : List (String × JsonValue) :=
  upsert form field value

/-- Observable outcome of one `restoreDataFromStorage` run: the two status
flags, the form contents, the store state, the diagnostics emitted, and the
arguments of the `onRestore` invocations made during the run. -/
structure RestoreResult (σ : Type) where
  isRestored : Bool
  isLoading : Bool
  form : List (String × JsonValue)
  store : σ
  diags : List String
  onRestoreCalls : List (List (String × JsonValue))

/-- Embedding of `restoreDataFromStorage`
(src/use-react-hook-form-storage.ts, lines 127-164), parameterised over the
platform's `JSON.parse` (`parse`). Sets loading, reads via the shim, skips a
falsy (absent or empty) record, parses a present one, selects and
deserializes, writes each resulting field into the form, latches
`isRestored`, invokes `onRestore` with `valuesToRestore`, and resolves with
`isLoading` reset by the `finally`. A thrown parse error, the `TypeError`
thrown when the parsed record cannot be converted to an object (a `null`
record), or a shim rejection (which cannot occur) is caught into a
diagnostic. The outer `Except` is the promise returned to the caller:
every branch resolves. -/
def restoreDataFromStorage {σ : Type}
    (parse : String → Except String JsonValue) (raw : RawAdapter σ)
    (key : String) (included excluded : Option (List String))
    (serializer : List (String × Serializer JsonValue))
    (isRestored0 : Bool) (form0 : List (String × JsonValue)) (s0 : σ) :
    Except String (RestoreResult σ) :=
  match shimGetItem raw key s0 with
  | (Except.error e, s1, d1) =>
      Except.ok { isRestored := isRestored0, isLoading := false, form := form0,
                  store := s1, diags := d1 ++ [restoreFailMsg e],
                  onRestoreCalls := [] }
  | (Except.ok none, s1, d1) =>
      Except.ok { isRestored := isRestored0, isLoading := false, form := form0,
                  store := s1, diags := d1, onRestoreCalls := [] }
  | (Except.ok (some storedValue), s1, d1) =>
      if storedValue = "" then
        Except.ok { isRestored := isRestored0, isLoading := false,
                    form := form0, store := s1, diags := d1,
                    onRestoreCalls := [] }
      else
        match parse storedValue with
        | Except.error e =>
            Except.ok { isRestored := isRestored0, isLoading := false,
                        form := form0, store := s1,
                        diags := d1 ++ [restoreFailMsg e],
                        onRestoreCalls := [] }
        | Except.ok parsedValue =>
            match objectEntries parsedValue with
            | Except.error e =>
                Except.ok { isRestored := isRestored0, isLoading := false,
                            form := form0, store := s1,
                            diags := d1 ++ [restoreFailMsg e],
                            onRestoreCalls := [] }
            | Except.ok entries =>
                let valuesToRestore :=
                  filterIncludedOrExcludedFields entries included excluded
                let deserializedValues :=
                  transformValues valuesToRestore serializer true
                let form1 :=
                  deserializedValues.foldl (fun f p => setValue f p.1 p.2)
                    form0
                Except.ok { isRestored := true, isLoading := false,
                            form := form1, store := s1, diags := d1,
                            onRestoreCalls := [valuesToRestore] }

/-- Observable outcome of one `saveToStorage` run. -/
structure SaveResult (σ : Type) where
  store : σ
  diags : List String
  onSaveCalls : List (List (String × JsonValue))

/-- Embedding of `saveToStorage` (src/use-react-hook-form-storage.ts, lines
108-124), parameterised over the platform's `JSON.stringify` (`stringify`):
selects, serializes, writes the encoded result via the shim at `key`, then
invokes `onSave` with `valuesToStore`. The catch branch, reachable only if
the awaited shim call rejected (which it never does), turns the failure into
a diagnostic. The outer `Except` is the promise: every branch resolves. -/
def saveToStorage {σ : Type}
    (stringify : List (String × JsonValue) → String) (raw : RawAdapter σ)
    (key : String) (included excluded : Option (List String))
    (serializer : List (String × Serializer JsonValue))
    (values : List (String × JsonValue)) (s0 : σ) :
    Except String (SaveResult σ) :=
  let valuesToStore := filterIncludedOrExcludedFields values included excluded
  let serialized := transformValues valuesToStore serializer false
  match shimSetItem raw key (stringify serialized) s0 with
  | (Except.ok _, s1, d1) =>
      Except.ok { store := s1, diags := d1, onSaveCalls := [valuesToStore] }
  | (Except.error e, s1, d1) =>
      Except.ok { store := s1, diags := d1 ++ [saveDataFailMsg e],
                  onSaveCalls := [] }

/-- Embedding of the hook's `clear`: `async () =>
storageAdapter.removeItem(key)`. -/
def clearStorage {σ : Type} (raw : RawAdapter σ) (key : String) (s0 : σ) :
    Except String Unit × σ × List String :=
  shimRemoveItem raw key s0

/-- Embedding of `debouncer` (src/utils.ts) together with the JS timer
semantics it relies on. The wrapped function's mutable `timeout` handle is
`some (fireTime, args)` while a timer is pending. `debounceRun delay calls
pending` plays a time-ordered list of calls against a pending timer: a
pending timer fires (the callback runs with its stored arguments at its fire
time) exactly when the next call arrives no earlier than the fire time;
otherwise the call's `clearTimeout` cancels it. Each call then schedules the
callback with its own arguments at its time plus `delay`, and with no
further calls the last pending timer fires. The result lists the
`(time, args)` executions of the wrapped callback. -/
def debounceRun {β : Type u} (delay : Nat) :
    List (Nat × β) → Option (Nat × β) → List (Nat × β)
  | [], none => []
  | [], some pending => [pending]
  | (t, a) :: rest, pending =>
      (match pending with
       | some (ft, pa) => if ft ≤ t then [(ft, pa)] else []
       | none => []) ++ debounceRun delay rest (some (t + delay, a))

theorem debounceRun_quiet {β : Type u} (delay : Nat) :
    ∀ (cs : List (Nat × β)) (t0 : Nat) (a0 : β),
      List.Chain' (fun p q : Nat × β => q.1 < p.1 + delay) ((t0, a0) :: cs) →
      debounceRun delay cs (some (t0 + delay, a0))
        = [((cs.getLastD (t0, a0)).1 + delay, (cs.getLastD (t0, a0)).2)] := by
  intro cs
  induction cs with
  | nil => intro t0 a0 _; rfl
  | cons c rest ih =>
    intro t0 a0 hchain
    obtain ⟨t, a⟩ := c
    rw [List.chain'_cons] at hchain
    obtain ⟨hlt, hchain'⟩ := hchain
    have hnot : ¬ (t0 + delay ≤ t) := by
      simp only [not_le]
      exact hlt
    show (if t0 + delay ≤ t then [(t0 + delay, a0)] else [])
        ++ debounceRun delay rest (some (t + delay, a)) = _
    rw [if_neg hnot, List.nil_append, ih t a hchain', List.getLastD_cons]

/-- A `filterMap` whose step keeps or drops each element whole is a
`filter`. -/
theorem filterMap_keepOrDrop_eq_filter {γ : Type u} (p : γ → Bool)
    (f : γ → Option γ) (hf : ∀ x, f x = if p x then some x else none) :
    ∀ l : List γ, l.filterMap f = l.filter p := by
  intro l
  induction l with
  | nil => simp
  | cons x xs ih =>
    by_cases hx : p x = true
    · rw [List.filterMap_cons_some (by rw [hf x, if_pos hx]),
        List.filter_cons_of_pos hx, ih]
    · rw [List.filterMap_cons_none (by rw [hf x, if_neg hx]),
        List.filter_cons_of_neg (by simpa using hx), ih]

/-- Claim C5: for every field mapping, registry and direction,
`transformValues` treats each entry (key, value) as follows: a key absent
from the registry passes its value through unchanged; a key whose registry
record lacks the function for the requested direction is omitted entirely
from the result; otherwise the function for the direction is applied and its
result stored under the key. In particular a record with only `serialize`
defined causes its key to be omitted in the restore direction. -/
theorem transformValues_entrywise {α : Type u} (values : List (String × α))
    (serializer : List (String × Serializer α)) (deserialize : Bool)
    (hnd : (values.map Prod.fst).Nodup) :
    transformValues values serializer deserialize
      = values.filterMap (fun p =>
          match List.lookup p.1 serializer with
          | none => some p
          | some fieldSerializer =>
            match (if deserialize then fieldSerializer.deserialize
                   else fieldSerializer.serialize) with
            | none => none
            | some transformFn => some (p.1, transformFn p.2)) ∧
    (∀ (k : String) (v : α) (f : α → α),
        transformValues [(k, v)]
          [(k, { serialize := some f, deserialize := none })] true = []) := by
  constructor
  · exact transformValues_eq_filterMap values serializer deserialize hnd
  · intro k v f
    simp [transformValues, List.lookup, upsert]

/-- Witness for C5 at a concrete mapping and registry. -/
theorem transformValues_entrywise_witness :
    transformValues [("a", (1 : Nat)), ("b", 2), ("c", 3)]
        [("b", { serialize := some (fun v => v + 1), deserialize := none }),
         ("c", { serialize := none, deserialize := some (fun v => v - 1) })]
        false
      = [("a", 1), ("b", 3)] ∧
    transformValues [("x", (5 : Nat))]
        [("x", { serialize := some (fun v => v * 2), deserialize := none })]
        true = [] := by
  have h := transformValues_entrywise [("a", (1 : Nat)), ("b", 2), ("c", 3)]
    [("b", { serialize := some (fun v => v + 1), deserialize := none }),
     ("c", { serialize := none, deserialize := some (fun v => v - 1) })]
    false (by decide)
  exact ⟨h.1.trans (by simp [List.lookup]), h.2 "x" 5 (fun v => v * 2)⟩

/-- Claim C6: with at most one selection list supplied,
`filterIncludedOrExcludedFields` with an included list keeps exactly the
entries whose key is in the list, in their original relative order; with an
excluded list it keeps exactly the entries whose key is not in the list; and
with neither it returns the mapping unchanged. -/
theorem filter_select_spec {α : Type u} (V : List (String × α))
    (K : List String) (hnd : (V.map Prod.fst).Nodup) :
    filterIncludedOrExcludedFields V (some K) none
        = V.filter (fun p => K.contains p.1) ∧
    filterIncludedOrExcludedFields V none (some K)
        = V.filter (fun p => !(K.contains p.1)) ∧
    filterIncludedOrExcludedFields V none none = V := by
  refine ⟨?_, ?_, ?_⟩
  · rw [filterIncludedOrExcludedFields_eq_filterMap V (some K) none hnd]
    apply filterMap_keepOrDrop_eq_filter
    intro p
    cases hc : K.contains p.1 <;>
      · show (if !(K.contains p.1) then none else some p) = _
        rw [hc]
        rfl
  · rw [filterIncludedOrExcludedFields_eq_filterMap V none (some K) hnd]
    apply filterMap_keepOrDrop_eq_filter
    intro p
    cases hc : K.contains p.1 <;>
      · show (if K.contains p.1 then none else some p) = _
        rw [hc]
        rfl
  · rw [filterIncludedOrExcludedFields_eq_filterMap V none none hnd]
    have : ∀ p : String × α, selectStep (α := α) none none p = some p :=
      fun p => rfl
    calc V.filterMap (selectStep none none)
        = V.filterMap some := by
          apply List.filterMap_congr
          intro p _
          rfl
      _ = V := List.filterMap_some V

/-- Witness for C6 at a concrete mapping and key set. -/
theorem filter_select_spec_witness :
    filterIncludedOrExcludedFields [("a", (1 : Nat)), ("b", 2), ("c", 3)]
        (some ["a", "c", "zz"]) none = [("a", 1), ("c", 3)] ∧
    filterIncludedOrExcludedFields [("a", (1 : Nat)), ("b", 2), ("c", 3)]
        none (some ["a", "c", "zz"]) = [("b", 2)] ∧
    filterIncludedOrExcludedFields [("a", (1 : Nat)), ("b", 2), ("c", 3)]
        none none = [("a", 1), ("b", 2), ("c", 3)] := by
  have h := filter_select_spec [("a", (1 : Nat)), ("b", 2), ("c", 3)]
    ["a", "c", "zz"] (by decide)
  exact ⟨h.1.trans (by decide), h.2.1.trans (by decide), h.2.2⟩

/-- Claim C8: transforming any field mapping with the empty registry is the
identity, in either direction. -/
theorem transformValues_empty_registry_id {α : Type u}
    (V : List (String × α)) (deserialize : Bool)
    (hnd : (V.map Prod.fst).Nodup) :
    transformValues V [] deserialize = V := by
  rw [transformValues_eq_filterMap V [] deserialize hnd]
  calc V.filterMap (transformStep [] deserialize)
      = V.filterMap some := by
        apply List.filterMap_congr
        intro p _
        rfl
    _ = V := List.filterMap_some V

/-- Witness for C8 at a concrete mapping, in both directions. -/
theorem transformValues_empty_registry_id_witness :
    transformValues [("a", (1 : Nat)), ("b", 2)] [] false
        = [("a", 1), ("b", 2)] ∧
    transformValues [("a", (1 : Nat)), ("b", 2)] [] true
        = [("a", 1), ("b", 2)] :=
  ⟨transformValues_empty_registry_id [("a", (1 : Nat)), ("b", 2)] false
      (by decide),
   transformValues_empty_registry_id [("a", (1 : Nat)), ("b", 2)] true
      (by decide)⟩

/-- Claim C9: when both an included and an excluded list are supplied, the
selector applies both filters — the result keeps exactly the entries whose
key is in the included list and not in the excluded list. -/
theorem filter_both_lists_applied {α : Type u} (V : List (String × α))
    (I E : List String) (hnd : (V.map Prod.fst).Nodup) :
    filterIncludedOrExcludedFields V (some I) (some E)
      = V.filter (fun p => I.contains p.1 && !(E.contains p.1)) := by
  rw [filterIncludedOrExcludedFields_eq_filterMap V (some I) (some E) hnd]
  apply filterMap_keepOrDrop_eq_filter
  intro p
  cases hi : I.contains p.1 <;> cases he : E.contains p.1 <;>
    · show (if !(I.contains p.1) then none
            else if E.contains p.1 then none else some p) = _
      rw [hi, he]
      rfl

/-- Witness for C9: the excluded list is honoured alongside the included
list. -/
theorem filter_both_lists_applied_witness :
    filterIncludedOrExcludedFields [("a", (1 : Nat)), ("b", 2), ("c", 3)]
      (some ["a", "b"]) (some ["b"]) = [("a", 1)] := by
  have h := filter_both_lists_applied [("a", (1 : Nat)), ("b", 2), ("c", 3)]
    ["a", "b"] ["b"] (by decide)
  exact h.trans (by decide)

/-- Claim C7: each call to the debounce-wrapped function cancels any pending
not-yet-executed scheduled call and schedules the callback with the new
arguments one delay later; for a time-ordered call sequence whose gaps are
all shorter than the delay, the callback executes exactly once, at the last
call's time plus the delay, with the last call's arguments. -/
theorem debouncer_last_call_wins {β : Type u} (delay : Nat) (c : Nat × β)
    (cs : List (Nat × β))
    (hquiet : List.Chain' (fun p q : Nat × β => q.1 < p.1 + delay) (c :: cs)) :
    debounceRun delay (c :: cs) none
      = [((cs.getLastD c).1 + delay, (cs.getLastD c).2)] := by
  obtain ⟨t0, a0⟩ := c
  show [] ++ debounceRun delay cs (some (t0 + delay, a0)) = _
  rw [List.nil_append, debounceRun_quiet delay cs t0 a0 hquiet]

/-- Witness for C7: calls at t = 0, 50, 100 with delay 300 produce exactly
one execution, at t = 400, with the arguments of the t = 100 call. -/
theorem debouncer_last_call_wins_witness :
    debounceRun 300 [((0 : Nat), (10 : Nat)), (50, 20), (100, 30)] none
      = [(400, 30)] := by
  have h := debouncer_last_call_wins 300 ((0 : Nat), (10 : Nat))
    [(50, 20), (100, 30)]
    (by norm_num [List.chain'_cons, List.chain'_singleton])
  exact h

/-- Claim C3: every underlying adapter failure during get/set/remove is
caught by the shim, which emits the diagnostic tagged for the operation and
resolves (get with `null`, set/remove with void); and the public operations
restore, save and clear always resolve, for every input and every
adapter. -/
theorem shim_contains_adapter_failures :
    (∀ (σ : Type) (raw : RawAdapter σ) (k : String) (s s' : σ) (e : String),
        raw.getItem k s = (Except.error e, s') →
        shimGetItem raw k s = (Except.ok none, s', [restoreFailMsg e])) ∧
    (∀ (σ : Type) (raw : RawAdapter σ) (k v : String) (s s' : σ) (e : String),
        raw.setItem k v s = (Except.error e, s') →
        shimSetItem raw k v s = (Except.ok (), s', [saveToStorageFailMsg e])) ∧
    (∀ (σ : Type) (raw : RawAdapter σ) (k : String) (s s' : σ) (e : String),
        raw.removeItem k s = (Except.error e, s') →
        shimRemoveItem raw k s = (Except.ok (), s', [clearFailMsg e])) ∧
    (∀ (σ : Type) (parse : String → Except String JsonValue)
        (raw : RawAdapter σ) (k : String) (inc exc : Option (List String))
        (ser : List (String × Serializer JsonValue)) (r0 : Bool)
        (f0 : List (String × JsonValue)) (s0 : σ),
        ∃ r, restoreDataFromStorage parse raw k inc exc ser r0 f0 s0
          = Except.ok r) ∧
    (∀ (σ : Type) (stringify : List (String × JsonValue) → String)
        (raw : RawAdapter σ) (k : String) (inc exc : Option (List String))
        (ser : List (String × Serializer JsonValue))
        (vals : List (String × JsonValue)) (s0 : σ),
        ∃ r, saveToStorage stringify raw k inc exc ser vals s0
          = Except.ok r) ∧
    (∀ (σ : Type) (raw : RawAdapter σ) (k : String) (s0 : σ),
        ∃ s1 d, clearStorage raw k s0 = (Except.ok (), s1, d)) := by
  refine ⟨?_, ?_, ?_, ?_, ?_, ?_⟩
  · intro σ raw k s s' e h
    unfold shimGetItem
    rw [h]
  · intro σ raw k v s s' e h
    unfold shimSetItem
    rw [h]
  · intro σ raw k s s' e h
    unfold shimRemoveItem
    rw [h]
  · intro σ parse raw k inc exc ser r0 f0 s0
    unfold restoreDataFromStorage
    split
    · exact ⟨_, rfl⟩
    · exact ⟨_, rfl⟩
    · split
      · exact ⟨_, rfl⟩
      · split
        · exact ⟨_, rfl⟩
        · split
          · exact ⟨_, rfl⟩
          · exact ⟨_, rfl⟩
  · intro σ stringify raw k inc exc ser vals s0
    simp only [saveToStorage]
    split
    · exact ⟨_, rfl⟩
    · exact ⟨_, rfl⟩
  · intro σ raw k s0
    unfold clearStorage shimRemoveItem
    rcases h : raw.removeItem k s0 with ⟨g, s1⟩
    cases g with
    | error e => exact ⟨s1, [clearFailMsg e], rfl⟩
    | ok u => exact ⟨s1, [], rfl⟩

/-- An adapter that fails on every operation, exercising the shim's catch
branches. -/
def failingAdapter : RawAdapter Unit where
  getItem := fun _ s => (Except.error "boom", s)
  setItem := fun _ _ s => (Except.error "boom", s)
  removeItem := fun _ s => (Except.error "boom", s)

/-- Witness for C3 on the always-failing adapter. -/
theorem shim_contains_adapter_failures_witness :
    shimGetItem failingAdapter "form" ()
        = (Except.ok none, (), [restoreFailMsg "boom"]) ∧
    shimSetItem failingAdapter "form" "v" ()
        = (Except.ok (), (), [saveToStorageFailMsg "boom"]) ∧
    shimRemoveItem failingAdapter "form" ()
        = (Except.ok (), (), [clearFailMsg "boom"]) ∧
    (∃ r, restoreDataFromStorage (fun _ => Except.error "bad") failingAdapter
        "form" none none [] false [] () = Except.ok r) :=
  ⟨shim_contains_adapter_failures.1 Unit failingAdapter "form" () () "boom"
      rfl,
   shim_contains_adapter_failures.2.1 Unit failingAdapter "form" "v" () ()
      "boom" rfl,
   shim_contains_adapter_failures.2.2.1 Unit failingAdapter "form" () ()
      "boom" rfl,
   shim_contains_adapter_failures.2.2.2.1 Unit (fun _ => Except.error "bad")
      failingAdapter "form" none none [] false [] ()⟩

/-- Claim C4: a present but unparseable stored record is contained inside
restore: the restored flag is left as it was (so it stays false), exactly
one diagnostic tagged for restore failure is emitted, the form keeps its
prior values, and loading ends false. -/
theorem restore_contains_parse_failure {σ : Type}
    (parse : String → Except String JsonValue) (raw : RawAdapter σ)
    (key : String) (inc exc : Option (List String))
    (ser : List (String × Serializer JsonValue)) (r0 : Bool)
    (form0 : List (String × JsonValue)) (s0 s1 : σ) (stored e : String)
    (hget : raw.getItem key s0 = (Except.ok (some stored), s1))
    (hne : stored ≠ "") (hparse : parse stored = Except.error e) :
    restoreDataFromStorage parse raw key inc exc ser r0 form0 s0 =
      Except.ok { isRestored := r0, isLoading := false, form := form0,
                  store := s1, diags := [restoreFailMsg e],
                  onRestoreCalls := [] } := by
  unfold restoreDataFromStorage shimGetItem
  rw [hget]
  simp only []
  rw [if_neg hne, hparse]
  rfl

/-- An adapter whose store constantly holds the literal text
`malformatted data` under every key. -/
def malformattedAdapter : RawAdapter Unit where
  getItem := fun _ s => (Except.ok (some "malformatted data"), s)
  setItem := fun _ _ s => (Except.ok (), s)
  removeItem := fun _ s => (Except.ok (), s)

/-- Witness for C4: restoring the literal text `malformatted data` with a
parse that rejects it leaves everything unchanged except for one
restore-failure diagnostic. -/
theorem restore_contains_parse_failure_witness :
    restoreDataFromStorage (fun _ => Except.error "SyntaxError")
        malformattedAdapter "testKey" none none [] false [] () =
      Except.ok { isRestored := false, isLoading := false, form := [],
                  store := (), diags := [restoreFailMsg "SyntaxError"],
                  onRestoreCalls := [] } :=
  restore_contains_parse_failure (fun _ => Except.error "SyntaxError")
    malformattedAdapter "testKey" none none [] false [] () ()
    "malformatted data" "SyntaxError" rfl (by decide) rfl

/-- Claim C10: a present record whose text is the empty string is treated
exactly like an absent record: no parse is attempted (the conclusion does
not depend on `parse`), the form is untouched, the restored flag is
unchanged, no diagnostic is emitted, and loading ends false. -/
theorem restore_empty_string_as_absent {σ : Type}
    (parse : String → Except String JsonValue) (raw : RawAdapter σ)
    (key : String) (inc exc : Option (List String))
    (ser : List (String × Serializer JsonValue)) (r0 : Bool)
    (form0 : List (String × JsonValue)) (s0 s1 : σ)
    (hget : raw.getItem key s0 = (Except.ok (some ""), s1)) :
    restoreDataFromStorage parse raw key inc exc ser r0 form0 s0 =
      Except.ok { isRestored := r0, isLoading := false, form := form0,
                  store := s1, diags := [], onRestoreCalls := [] } := by
  unfold restoreDataFromStorage shimGetItem
  rw [hget]
  simp only []
  rw [if_pos trivial]

/-- An adapter whose store holds the empty string under every key. -/
def emptyStringAdapter : RawAdapter Unit where
  getItem := fun _ s => (Except.ok (some ""), s)
  setItem := fun _ _ s => (Except.ok (), s)
  removeItem := fun _ s => (Except.ok (), s)

/-- Witness for C10 on a store holding the empty string. -/
theorem restore_empty_string_as_absent_witness :
    restoreDataFromStorage (fun _ => Except.error "never called")
        emptyStringAdapter "testKey" none none [] false [] () =
      Except.ok { isRestored := false, isLoading := false, form := [],
                  store := (), diags := [], onRestoreCalls := [] } :=
  restore_empty_string_as_absent (fun _ => Except.error "never called")
    emptyStringAdapter "testKey" none none [] false [] () () rfl

/-- Amended claim C1: a restore that finds a present, parseable record
whose parsed value converts to an object (so not JSON `null`, whose
`Object.entries` throws) latches `restored := true`, writes the
selected-and-transformed fields into the form, and invokes `onRestore` with
the selected mapping — field selection applied, but the
deserialize-direction transform not applied. -/
theorem restore_success_behavior {σ : Type}
    (parse : String → Except String JsonValue) (raw : RawAdapter σ)
    (key : String) (inc exc : Option (List String))
    (ser : List (String × Serializer JsonValue)) (r0 : Bool)
    (form0 : List (String × JsonValue)) (s0 s1 : σ) (stored : String)
    (pv : JsonValue) (entries : List (String × JsonValue))
    (hget : raw.getItem key s0 = (Except.ok (some stored), s1))
    (hne : stored ≠ "") (hparse : parse stored = Except.ok pv)
    (hentries : objectEntries pv = Except.ok entries) :
    restoreDataFromStorage parse raw key inc exc ser r0 form0 s0 =
      Except.ok { isRestored := true, isLoading := false,
                  form := (transformValues
                      (filterIncludedOrExcludedFields entries inc exc)
                      ser true).foldl
                    (fun f p => setValue f p.1 p.2) form0,
                  store := s1, diags := [],
                  onRestoreCalls :=
                    [filterIncludedOrExcludedFields entries inc exc] } := by
  unfold restoreDataFromStorage shimGetItem
  rw [hget]
  simp only []
  rw [if_neg hne, hparse]
  simp only []
  rw [hentries]

/-- A present record parsing to JSON `null` aborts restore through the
catch: converting `null` to an object throws a `TypeError` inside the
selection helper, so the restored flag and the form are left unchanged and
one restore-tagged diagnostic is emitted. -/
theorem restore_null_record_aborts {σ : Type}
    (parse : String → Except String JsonValue) (raw : RawAdapter σ)
    (key : String) (inc exc : Option (List String))
    (ser : List (String × Serializer JsonValue)) (r0 : Bool)
    (form0 : List (String × JsonValue)) (s0 s1 : σ) (stored : String)
    (hget : raw.getItem key s0 = (Except.ok (some stored), s1))
    (hne : stored ≠ "")
    (hparse : parse stored = Except.ok JsonValue.null) :
    restoreDataFromStorage parse raw key inc exc ser r0 form0 s0 =
      Except.ok { isRestored := r0, isLoading := false, form := form0,
                  store := s1,
                  diags := [restoreFailMsg
                    "TypeError: Cannot convert undefined or null to object"],
                  onRestoreCalls := [] } := by
  unfold restoreDataFromStorage shimGetItem
  rw [hget]
  simp only []
  rw [if_neg hne, hparse]
  rfl

/-- An adapter whose store holds the text `rec` under every key. -/
def presentRecAdapter : RawAdapter Unit where
  getItem := fun _ s => (Except.ok (some "rec"), s)
  setItem := fun _ _ s => (Except.ok (), s)
  removeItem := fun _ s => (Except.ok (), s)

/-- Witness for the amended claim C1 on a concrete record and registry. -/
theorem restore_success_behavior_witness :
    restoreDataFromStorage
        (fun _ => Except.ok (JsonValue.obj [("name", JsonValue.str "A")]))
        presentRecAdapter "k" none none
        [("name", { serialize := none,
                    deserialize := some (fun _ => JsonValue.str "B") })]
        false [] () =
      Except.ok { isRestored := true, isLoading := false,
                  form := [("name", JsonValue.str "B")], store := (),
                  diags := [],
                  onRestoreCalls := [[("name", JsonValue.str "A")]] } := by
  have h := restore_success_behavior
    (fun _ => Except.ok (JsonValue.obj [("name", JsonValue.str "A")]))
    presentRecAdapter "k" none none
    [("name", { serialize := none,
                deserialize := some (fun _ => JsonValue.str "B") })]
    false [] () () "rec" (JsonValue.obj [("name", JsonValue.str "A")])
    [("name", JsonValue.str "A")]
    rfl (by decide) rfl rfl
  rw [h]
  rfl

/-- Counterexample to claim C1 as stated: in a successful restore the
`onRestore` callback receives the selected mapping, which differs from the
selected-and-transformed mapping when a deserialize transform changes a
value. -/
theorem restore_onRestore_pretransform_cex :
    restoreDataFromStorage
        (fun _ => Except.ok (JsonValue.obj [("name", JsonValue.str "A")]))
        presentRecAdapter "k" none none
        [("name", { serialize := none,
                    deserialize := some (fun _ => JsonValue.str "B") })]
        false [] () =
      Except.ok { isRestored := true, isLoading := false,
                  form := [("name", JsonValue.str "B")], store := (),
                  diags := [],
                  onRestoreCalls := [[("name", JsonValue.str "A")]] } ∧
    transformValues [("name", JsonValue.str "A")]
        [("name", { serialize := none,
                    deserialize := some (fun _ => JsonValue.str "B") })]
        true
      = [("name", JsonValue.str "B")] ∧
    ([[("name", JsonValue.str "A")]] :
        List (List (String × JsonValue)))
      ≠ [[("name", JsonValue.str "B")]] := by
  refine ⟨?_, ?_, ?_⟩
  · rfl
  · rfl
  · simp

/-- Amended claim C2: save applies field selection, then the
serialize-direction transform, hands the JSON-encoded result to the raw
adapter's write at `key`, and invokes `onSave` with the selected
(pre-serialize) mapping unconditionally — in particular also when the
adapter write fails, that failure being contained in the shim and surfaced
only as a diagnostic. -/
theorem save_pipeline_behavior {σ : Type}
    (stringify : List (String × JsonValue) → String) (raw : RawAdapter σ)
    (key : String) (inc exc : Option (List String))
    (ser : List (String × Serializer JsonValue))
    (vals : List (String × JsonValue)) (s0 : σ) :
    saveToStorage stringify raw key inc exc ser vals s0 =
      Except.ok { store := (raw.setItem key (stringify (transformValues
                    (filterIncludedOrExcludedFields vals inc exc)
                    ser false)) s0).2,
                  diags := (match (raw.setItem key (stringify
                      (transformValues
                        (filterIncludedOrExcludedFields vals inc exc)
                        ser false)) s0).1 with
                    | Except.ok _ => []
                    | Except.error e => [saveToStorageFailMsg e]),
                  onSaveCalls :=
                    [filterIncludedOrExcludedFields vals inc exc] } := by
  simp only [saveToStorage, shimSetItem]
  rcases h : raw.setItem key (stringify (transformValues
      (filterIncludedOrExcludedFields vals inc exc) ser false)) s0
    with ⟨g, s1⟩
  cases g with
  | error e => rfl
  | ok u => rfl

/-- Counterexample to claim C2 as stated: with an adapter whose write always
fails, the write's failure is swallowed by the shim and `onSave` is still
invoked, so `onSave` is not invoked only-if the adapter write succeeded. -/
theorem save_onSave_despite_adapter_failure_cex :
    saveToStorage (fun _ => "enc") failingAdapter "k" none none []
        [("name", JsonValue.str "x")] () =
      Except.ok { store := (), diags := [saveToStorageFailMsg "boom"],
                  onSaveCalls := [[("name", JsonValue.str "x")]] } ∧
    (failingAdapter.setItem "k" "enc" ()).1 = Except.error "boom" :=
  ⟨rfl, rfl⟩

end FormStorage
